import Mathlib

/-!
Verification of the TinyJukebox / SeinfeldTV firmware core
(binary metadata layouts, scrolling-text animator, framebuffer drawing
primitives, navigation clamping, metadata decoding).

The definitions below are shallow embeddings of the C structs and
functions in `src/firmware/TinyJukebox/appState.h`,
`src/firmware/TinyJukebox/uiHelpers.h` and
`src/firmware/SeinfeldTV/appState.h`.
-/

namespace SeinfeldTV

/-! ## Binary record layouts

Each packed C struct from `appState.h` is embedded as a list of fields
with an explicit kind and byte width.  Since every struct carries
`__attribute__((packed))`, the byte offset of a field is the sum of the
widths before it and the total size is the sum of all widths. -/

/-- The role a field plays in a record: the 4-byte ASCII magic tag, the
format-version byte, a count/number field, a fixed-width text field, or
reserved padding. -/
inductive FieldKind where
  | magic
  | version
  | count
  | text
  | reserved
deriving DecidableEq

/-- One field of a packed struct: its C name, role, and width in bytes. -/
structure LayoutField where
  cname : String
  kind : FieldKind
  width : Nat

/-- Total byte length of a packed struct: the sum of its field widths
(`__attribute__((packed))` forbids compiler padding). -/
def layoutSize (l : List LayoutField) : Nat :=
  (l.map LayoutField.width).sum

/-- `struct ShowMetadata` (TinyJukebox/appState.h lines 66-74, identical in
SeinfeldTV/appState.h lines 30-38). -/
def showLayout : List LayoutField :=
  [⟨"magic", .magic, 4⟩, ⟨"version", .version, 1⟩,
   ⟨"seasonCount", .count, 1⟩, ⟨"totalEpisodes", .count, 2⟩,
   ⟨"name", .text, 48⟩, ⟨"year", .text, 8⟩, ⟨"reserved", .reserved, 64⟩]

/-- `struct SeasonMetadata` (TinyJukebox/appState.h lines 77-85, identical in
SeinfeldTV/appState.h lines 41-49). -/
def seasonLayout : List LayoutField :=
  [⟨"magic", .magic, 4⟩, ⟨"seasonNumber", .count, 1⟩,
   ⟨"episodeCount", .count, 1⟩, ⟨"reserved1", .reserved, 2⟩,
   ⟨"year", .text, 8⟩, ⟨"title", .text, 24⟩, ⟨"reserved2", .reserved, 24⟩]

/-- `struct EpisodeMetadata` (TinyJukebox/appState.h lines 88-97, identical in
SeinfeldTV/appState.h lines 52-61). -/
def episodeLayout : List LayoutField :=
  [⟨"magic", .magic, 4⟩, ⟨"seasonNumber", .count, 1⟩,
   ⟨"episodeNumber", .count, 1⟩, ⟨"runtimeMinutes", .count, 2⟩,
   ⟨"title", .text, 48⟩, ⟨"airDate", .text, 12⟩,
   ⟨"description", .text, 56⟩, ⟨"reserved", .reserved, 4⟩]

/-- `struct MovieMetadata` (TinyJukebox/appState.h lines 102-111). -/
def movieLayout : List LayoutField :=
  [⟨"magic", .magic, 4⟩, ⟨"version", .version, 1⟩,
   ⟨"reserved1", .reserved, 1⟩, ⟨"runtimeMinutes", .count, 2⟩,
   ⟨"title", .text, 48⟩, ⟨"year", .text, 8⟩,
   ⟨"description", .text, 56⟩, ⟨"reserved2", .reserved, 8⟩]

/-- `struct CollectionMetadata` (TinyJukebox/appState.h lines 116-124). -/
def collectionLayout : List LayoutField :=
  [⟨"magic", .magic, 4⟩, ⟨"version", .version, 1⟩,
   ⟨"videoCount", .count, 1⟩, ⟨"reserved1", .reserved, 2⟩,
   ⟨"name", .text, 48⟩, ⟨"year", .text, 8⟩, ⟨"reserved2", .reserved, 64⟩]

/-- `struct VideoMetadata` (TinyJukebox/appState.h lines 127-136). -/
def videoLayout : List LayoutField :=
  [⟨"magic", .magic, 4⟩, ⟨"videoNumber", .count, 1⟩,
   ⟨"reserved1", .reserved, 1⟩, ⟨"runtimeMinutes", .count, 2⟩,
   ⟨"title", .text, 48⟩, ⟨"artist", .text, 12⟩,
   ⟨"description", .text, 56⟩, ⟨"reserved2", .reserved, 4⟩]

/-- `struct ArtistMetadata` (TinyJukebox/appState.h lines 141-149). -/
def artistLayout : List LayoutField :=
  [⟨"magic", .magic, 4⟩, ⟨"version", .version, 1⟩,
   ⟨"albumCount", .count, 1⟩, ⟨"totalTracks", .count, 2⟩,
   ⟨"name", .text, 48⟩, ⟨"genre", .text, 8⟩, ⟨"reserved", .reserved, 64⟩]

/-- `struct MusicAlbumMetadata` (TinyJukebox/appState.h lines 152-160). -/
def musicAlbumLayout : List LayoutField :=
  [⟨"magic", .magic, 4⟩, ⟨"albumNumber", .count, 1⟩,
   ⟨"trackCount", .count, 1⟩, ⟨"reserved1", .reserved, 2⟩,
   ⟨"year", .text, 8⟩, ⟨"title", .text, 24⟩, ⟨"reserved2", .reserved, 24⟩]

/-- `struct TrackMetadata` (TinyJukebox/appState.h lines 163-170). -/
def trackLayout : List LayoutField :=
  [⟨"magic", .magic, 4⟩, ⟨"trackNumber", .count, 1⟩,
   ⟨"reserved1", .reserved, 1⟩, ⟨"runtimeSeconds", .count, 2⟩,
   ⟨"title", .text, 48⟩, ⟨"reserved2", .reserved, 8⟩]

/-- `struct PhotoAlbumMetadata` (TinyJukebox/appState.h lines 175-182). -/
def photoAlbumLayout : List LayoutField :=
  [⟨"magic", .magic, 4⟩, ⟨"version", .version, 1⟩,
   ⟨"photoCount", .count, 1⟩, ⟨"reserved1", .reserved, 2⟩,
   ⟨"title", .text, 48⟩, ⟨"reserved2", .reserved, 8⟩]

/-- `struct PhotoMetadata` (TinyJukebox/appState.h lines 185-191). -/
def photoLayout : List LayoutField :=
  [⟨"magic", .magic, 4⟩, ⟨"photoNumber", .count, 1⟩,
   ⟨"reserved1", .reserved, 3⟩,
   ⟨"caption", .text, 48⟩, ⟨"dateTaken", .text, 8⟩]

/-- `struct YouTubePlaylistMetadata` (TinyJukebox/appState.h lines 196-205). -/
def youtubePlaylistLayout : List LayoutField :=
  [⟨"magic", .magic, 4⟩, ⟨"version", .version, 1⟩,
   ⟨"videoCount", .count, 1⟩, ⟨"reserved1", .reserved, 2⟩,
   ⟨"name", .text, 48⟩, ⟨"year", .text, 8⟩,
   ⟨"uploader", .text, 24⟩, ⟨"reserved2", .reserved, 40⟩]

/-- `struct YouTubeVideoMetadata` (TinyJukebox/appState.h lines 208-218). -/
def youtubeVideoLayout : List LayoutField :=
  [⟨"magic", .magic, 4⟩, ⟨"videoNumber", .count, 1⟩,
   ⟨"reserved1", .reserved, 1⟩, ⟨"runtimeMinutes", .count, 2⟩,
   ⟨"title", .text, 48⟩, ⟨"uploader", .text, 12⟩,
   ⟨"uploadDate", .text, 12⟩, ⟨"description", .text, 44⟩,
   ⟨"reserved2", .reserved, 4⟩]

/-- The thirteen record tiers of the catalog. -/
inductive Tier where
  | show
  | season
  | episode
  | movie
  | collection
  | video
  | artist
  | musicAlbum
  | track
  | photoAlbum
  | photo
  | youtubePlaylist
  | youtubeVideo
deriving DecidableEq

/-- The packed-struct layout of each tier's record. -/
def tierLayout : Tier → List LayoutField
  | .show => showLayout
  | .season => seasonLayout
  | .episode => episodeLayout
  | .movie => movieLayout
  | .collection => collectionLayout
  | .video => videoLayout
  | .artist => artistLayout
  | .musicAlbum => musicAlbumLayout
  | .track => trackLayout
  | .photoAlbum => photoAlbumLayout
  | .photo => photoLayout
  | .youtubePlaylist => youtubePlaylistLayout
  | .youtubeVideo => youtubeVideoLayout

/-- The total byte length the spec's table (§6) declares for each tier. -/
def specDeclaredLen : Tier → Nat
  | .show => 128
  | .season => 64
  | .episode => 128
  | .movie => 128
  | .collection => 128
  | .video => 128
  | .artist => 128
  | .musicAlbum => 64
  | .track => 64
  | .photoAlbum => 64
  | .photo => 64
  | .youtubePlaylist => 128
  | .youtubeVideo => 128

/-! ## Field-order predicates

`claimedFieldOrder` transcribes the order the spec asserts for every
record: magic(4), then a version byte, then count/number fields, then
text fields, then reserved tail padding.  `actualFieldOrder` is the
order the thirteen structs actually share: magic(4), an optional version
byte, count fields with possible interior reserved padding, then text
fields, then optional reserved tail padding. -/

/-- Checks that a kind sequence is `count*` then `text*` then
`reserved*`, with no interleaving. -/
def countsTextsTail : Nat → List FieldKind → Bool
  | _, [] => true
  | 0, .count :: rest => countsTextsTail 0 rest
  | 0, .text :: rest => countsTextsTail 1 rest
  | 0, .reserved :: rest => countsTextsTail 2 rest
  | 1, .text :: rest => countsTextsTail 1 rest
  | 1, .reserved :: rest => countsTextsTail 2 rest
  | 2, .reserved :: rest => countsTextsTail 2 rest
  | _, _ => false

/-- The field order claimed for every tier: a 4-byte magic tag first,
immediately followed by a 1-byte version field, then count/number
fields, then text fields, then reserved tail padding. -/
def claimedFieldOrder (l : List LayoutField) : Bool :=
  match l with
  | f0 :: f1 :: rest =>
      f0.kind == .magic && f0.width == 4 && f1.kind == .version && f1.width == 1 &&
      countsTextsTail 0 (rest.map LayoutField.kind)
  | _ => false

/-- Checks `(count | reserved)*` then `text*` then `reserved*`. -/
def countsThenTexts : Nat → List FieldKind → Bool
  | _, [] => true
  | 0, .count :: rest => countsThenTexts 0 rest
  | 0, .reserved :: rest => countsThenTexts 0 rest
  | 0, .text :: rest => countsThenTexts 1 rest
  | 1, .text :: rest => countsThenTexts 1 rest
  | 1, .reserved :: rest => countsThenTexts 2 rest
  | 2, .reserved :: rest => countsThenTexts 2 rest
  | _, _ => false

/-- The field order the structs actually share: a 4-byte magic tag
first, an optional 1-byte version field, then count/number fields with
possible interior reserved padding, then text fields, then optional
reserved tail padding. -/
def actualFieldOrder (l : List LayoutField) : Bool :=
  match l with
  | ⟨_, .magic, 4⟩ :: ⟨_, .version, 1⟩ :: rest =>
      countsThenTexts 0 (rest.map LayoutField.kind)
  | ⟨_, .magic, 4⟩ :: rest =>
      countsThenTexts 0 (rest.map LayoutField.kind)
  | _ => false

/-- Whether a layout carries a format-version byte immediately after the
magic tag. -/
def versionAfterMagic (l : List LayoutField) : Bool :=
  match l with
  | _ :: f1 :: _ => f1.kind == .version
  | _ => false

/-- The tiers whose struct actually has a `version` field. -/
def tierHasVersion : Tier → Bool
  | .show => true
  | .movie => true
  | .collection => true
  | .artist => true
  | .photoAlbum => true
  | .youtubePlaylist => true
  | _ => false

/-! ## Framebuffer drawing primitives (uiHelpers.h)

`frameBuf` is a flat array of `VIDEO_W * VIDEO_H` RGB565 pixels indexed
by `row * VIDEO_W + col`; we embed it as a total function `Int → Nat`
so that out-of-range accesses are expressible (and then proved never to
happen).  The display dimensions come from TinyTV2.h
(`VIDEO_W = 210`, `VIDEO_H = 135`, quoted in SeinfeldTV/appState.h and
matching `FULLSCREEN_W`/`FULLSCREEN_H` in TinyJukebox/appState.h). -/

def VIDEO_W : Int := 210

def VIDEO_H : Int := 135

/-- `COL_BG` (black background, 0x0000). -/
def COL_BG : Nat := 0

/-- `frameBuf[i] = v` as a functional update. -/
def fbWrite (fb : Int → Nat) (i : Int) (v : Nat) : Int → Nat :=
  fun j => if j = i then v else fb j

/-- Inner loop of `fillRect`: `for (col = x; col < x+w && col < VIDEO_W;
col++) { if (col < 0) continue; frameBuf[row*VIDEO_W+col] = color; }`,
unrolled over its iteration count. -/
def fillRectCols (row : Int) (color : Nat) :
    Nat → Int → (Int → Nat) → (Int → Nat)
  | 0, _, fb => fb
  | n + 1, col, fb =>
      fillRectCols row color n (col + 1)
        (if col < 0 then fb else fbWrite fb (row * VIDEO_W + col) color)

/-- Outer loop of `fillRect`: `for (row = y; row < y+h && row < VIDEO_H;
row++) { if (row < 0) continue; <inner loop>; }`. -/
def fillRectRows (x w : Int) (color : Nat) :
    Nat → Int → (Int → Nat) → (Int → Nat)
  | 0, _, fb => fb
  | n + 1, row, fb =>
      fillRectRows x w color n (row + 1)
        (if row < 0 then fb
         else fillRectCols row color (min (x + w) VIDEO_W - x).toNat x fb)

/-- `fillRect` (uiHelpers.h lines 39-48).  The loop on rows runs while
`row < y + h && row < VIDEO_H`, i.e. for
`(min (y+h) VIDEO_H - y).toNat` iterations starting at `y`; likewise
for columns. -/
def fillRect (x y w h : Int) (color : Nat) (fb : Int → Nat) : Int → Nat :=
  fillRectRows x w color (min (y + h) VIDEO_H - y).toNat y fb

/-- Inner loop of `drawIcon`: `for (col = 0; col < w; col++)` with the
`fx` bounds check and the transparent-black test. -/
def drawIconCols (icon : Int → Nat) (w row fy x : Int) :
    Nat → Int → (Int → Nat) → (Int → Nat)
  | 0, _, fb => fb
  | n + 1, col, fb =>
      drawIconCols icon w row fy x n (col + 1)
        (let fx := x + col
         if fx < 0 ∨ VIDEO_W ≤ fx then fb
         else
           let pixel := icon (row * w + col)
           if pixel ≠ 0 then fbWrite fb (fy * VIDEO_W + fx) pixel else fb)

/-- Outer loop of `drawIcon`: `for (row = 0; row < h; row++)` with the
`fy` bounds check. -/
def drawIconRows (icon : Int → Nat) (x y w : Int) :
    Nat → Int → (Int → Nat) → (Int → Nat)
  | 0, _, fb => fb
  | n + 1, row, fb =>
      drawIconRows icon x y w n (row + 1)
        (let fy := y + row
         if fy < 0 ∨ VIDEO_H ≤ fy then fb
         else drawIconCols icon w row fy x w.toNat 0 fb)

/-- `drawIcon` (uiHelpers.h lines 77-91).  `iconData` is embedded as a
function `Int → Nat` (`pgm_read_word`). -/
def drawIcon (icon : Int → Nat) (x y w h : Int) (fb : Int → Nat) : Int → Nat :=
  drawIconRows icon x y w h.toNat 0 fb

/-! ## Text measurement and the scrolling-text automaton -/

/-- C `strlen`: the number of bytes before the first null byte (the
whole length if no null occurs).  Strings are embedded as byte lists. -/
def strlen : List Nat → Nat
  | [] => 0
  | b :: rest => if b = 0 then 0 else strlen rest + 1

/-- `textWidth` (uiHelpers.h lines 70-72): `strlen(text) * 8`. -/
def textWidth (text : List Nat) : Int :=
  (strlen text : Int) * 8

/-- Truncation of an `int` value to `int16_t` (two's complement),
as happens when storing into `ScrollSlot.offsetPx`/`maxOffset`. -/
def i16 (v : Int) : Int :=
  (v + 32768) % 65536 - 32768

/-- `struct ScrollSlot` (TinyJukebox/appState.h lines 247-253).
`offsetPx` and `maxOffset` are `int16_t`, `lastStepMs` is `uint32_t`,
`phase` is `uint8_t` (0 = initial pause, 1 = scrolling, 2 = end pause,
3 = reset). -/
structure ScrollSlot where
  offsetPx : Int
  maxOffset : Int
  lastStepMs : Nat
  phase : Nat
  active : Bool

/-- `drawScrollText` (uiHelpers.h lines 104-151).  The external font
rasterizer (`drawText`, backed by GraphicsBuffer2) is passed in as
`render fb drawX y color`; `nowMs` is the value `millis()` returns.
Returns the updated slot and framebuffer. -/
def drawScrollText (render : (Int → Nat) → Int → Int → Nat → (Int → Nat))
    (text : List Nat) (x y maxWidth : Int) (color : Nat) (nowMs : Nat)
    (slot : ScrollSlot) (fb : Int → Nat) : ScrollSlot × (Int → Nat) :=
  let tw := textWidth text
  if tw ≤ maxWidth then
    ({ slot with maxOffset := 0, active := false }, render fb x y color)
  else
    let overflow := tw - maxWidth
    let slot1 :=
      if slot.maxOffset ≠ overflow then
        { slot with
            maxOffset := i16 overflow,
            lastStepMs :=
              if slot.phase = 0 ∧ slot.offsetPx = 0 ∧ slot.lastStepMs = 0
              then nowMs else slot.lastStepMs,
            active := true }
      else slot
    let drawX := x - slot1.offsetPx
    let fb1 := render fb drawX y color
    let textH : Int := 18
    let textLeft := if drawX > 0 then drawX else 0
    let textRight0 := drawX + tw
    let textRight := if textRight0 > VIDEO_W then VIDEO_W else textRight0
    let fb2 :=
      if textLeft < x then fillRect textLeft y (x - textLeft) textH COL_BG fb1
      else fb1
    let rightEdge := x + maxWidth
    let fb3 :=
      if textRight > rightEdge
      then fillRect rightEdge y (textRight - rightEdge) textH COL_BG fb2
      else fb2
    (slot1, fb3)

/-- Contract of the external font rasterizer (`drawText`, backed by
GraphicsBuffer2): drawing a text of measured width `tw` at `(dx, dy)`
changes only in-screen cells inside the text's bounding box
`[dx, dx+tw) × [dy, dy+18)` (18 px is the liberationSansNarrow_14pt
character height used throughout uiHelpers.h). -/
def rendersWithin (tw : Int)
    (render : (Int → Nat) → Int → Int → Nat → (Int → Nat)) : Prop :=
  ∀ (fb : Int → Nat) (dx dy : Int) (color : Nat) (i : Int),
    render fb dx dy color i ≠ fb i →
    ∃ r c : Int, dy ≤ r ∧ r < dy + 18 ∧ 0 ≤ r ∧ r < VIDEO_H ∧
      dx ≤ c ∧ c < dx + tw ∧ 0 ≤ c ∧ c < VIDEO_W ∧ i = r * VIDEO_W + c

/-! ## Navigation index stepping (modelled from the spec)

The next/previous event handlers of the NavigationStateMachine live in
the firmware `.ino` files, which are not part of `src/`; only the
`AppContext` indices and counts they mutate are declared in
`appState.h`.  The stepping behaviour is therefore modelled from the
spec. -/

/-- A next or previous input event for the current tier's list. -/
inductive NavEvent where
  | next
  | prev

/-- Modelled from the spec: the navigation-index update performed by the
NavigationStateMachine's next/previous handlers (missing from src/;
only `AppContext`'s `showNavIndex`/`seasonNavIndex`/`itemNavIndex`/
`subItemNavIndex` and their counts are declared there).  Spec §4.2:
"Next/previous events increment or decrement the current tier's
navigation index, clamped to [0, count−1] (no wraparound) whenever
count > 0; no-op when count == 0." -/
def navStep (count idx : Int) : NavEvent → Int
  | .next => if 0 < count then min (idx + 1) (count - 1) else idx
  | .prev => if 0 < count then max (idx - 1) 0 else idx

/-- Folds a sequence of next/previous events over a navigation index. -/
def navRun (count : Int) (evs : List NavEvent) (idx : Int) : Int :=
  match evs with
  | [] => idx
  | e :: rest => navRun count rest (navStep count idx e)

/-! ## Metadata decoding (modelled from the spec)

`decode` itself lives in the firmware `.ino` files, which are not part
of `src/`; `appState.h` provides the magic tags, the
`FORMAT_VERSION (1)` comment and the struct layouts it validates
against.  The operation is therefore modelled from spec §4.1. -/

/-- Decode-time error taxonomy (spec §7). -/
inductive DecodeError where
  | Truncated
  | BadMagic
  | UnsupportedVersion
deriving DecidableEq

/-- The magic tag of each tier, from the `#define` constants in
TinyJukebox/appState.h lines 351-363 (SeinfeldTV/appState.h lines
136-138 for the first three). -/
def tierMagic : Tier → String
  | .show => "SFTV"
  | .season => "SFSN"
  | .episode => "SFEP"
  | .movie => "TJMV"
  | .collection => "TJVC"
  | .video => "TJVD"
  | .artist => "TJMA"
  | .musicAlbum => "TJAL"
  | .track => "TJTK"
  | .photoAlbum => "TJPA"
  | .photo => "TJPH"
  | .youtubePlaylist => "TJYP"
  | .youtubeVideo => "TJYV"

/-- The magic tag as ASCII byte values. -/
def magicBytes (t : Tier) : List Nat :=
  (tierMagic t).toList.map Char.toNat

/-- Modelled from the spec: `decode(bytes, expectedTier)` (implemented
in the firmware `.ino` files missing from src/).  Spec §4.1: fails with
`Truncated` if the input is shorter than the tier's declared fixed
length, with `BadMagic` if the first 4 bytes do not equal the tier's
expected tag, and with `UnsupportedVersion` if the version byte does
not equal the single supported value (1); the version check applies to
the tiers whose struct carries a version field, always at byte offset
4.  On success the record's bytes are returned. -/
def decode (bytes : List Nat) (t : Tier) : Except DecodeError (List Nat) :=
  if bytes.length < layoutSize (tierLayout t) then .error .Truncated
  else if bytes.take 4 ≠ magicBytes t then .error .BadMagic
  else if tierHasVersion t ∧ bytes.getD 4 0 ≠ 1 then .error .UnsupportedVersion
  else .ok (bytes.take (layoutSize (tierLayout t)))

end SeinfeldTV

namespace SeinfeldTV

/-- C1: every tier's packed record layout sums to exactly the byte length
the spec declares for that tier (128 bytes for show, episode, movie, video
collection, video, artist, playlist and playlist video; 64 bytes for
season, music album, track, photo album and photo). -/
theorem record_total_length_exact (t : Tier) :
    layoutSize (tierLayout t) = specDeclaredLen t := by
  cases t <;> rfl

/-- C2 counterexample: the season record does not follow the claimed
field order — its magic tag is followed by `seasonNumber`, not by a
format-version byte (the struct has no version field at all), and a
reserved field sits between the count fields and the text fields. -/
theorem season_breaks_claimed_field_order :
    claimedFieldOrder (tierLayout .season) = false := by
  rfl

/-- C2 amended: every tier's record has the 4-byte magic tag first; a
format-version byte immediately follows the magic exactly in the show,
movie, video collection, artist, photo album and playlist records; then
come the count/number fields with possible interior reserved padding,
then the fixed-width text fields, then optional reserved tail padding
(absent in the photo record, which ends with a text field). -/
theorem record_field_order (t : Tier) :
    actualFieldOrder (tierLayout t) = true ∧
    versionAfterMagic (tierLayout t) = tierHasVersion t := by
  cases t <;> exact ⟨rfl, rfl⟩

/-- `strlen` counts exactly the bytes before the first null. -/
theorem strlen_eq_takeWhile (text : List Nat) :
    strlen text = (text.takeWhile (fun b => b != 0)).length := by
  induction text with
  | nil => rfl
  | cons b rest ih =>
      by_cases hb : b = 0
      · simp [strlen, List.takeWhile, hb]
      · have hb' : (b != 0) = true := by simpa using hb
        simp [strlen, List.takeWhile, hb, hb', ih]

/-- C10: `textWidth` returns exactly 8 times the number of bytes before
the null terminator, hence is a nonnegative multiple of 8 and depends
only on that count, not on which characters the string contains. -/
theorem textWidth_eight_per_char (text : List Nat) :
    textWidth text = 8 * ((text.takeWhile (fun b => b != 0)).length : Int) ∧
    (8 : Int) ∣ textWidth text ∧ 0 ≤ textWidth text := by
  refine ⟨?_, ?_, ?_⟩
  · rw [textWidth, strlen_eq_takeWhile]; ring
  · exact Dvd.intro _ (mul_comm _ _)
  · show (0 : Int) ≤ (strlen text : Int) * 8
    exact mul_nonneg (Int.natCast_nonneg _) (by norm_num)

/-- C3 counterexample: for a slot left mid-scroll (offsetPx = 5) and a
text that fits (width 8 ≤ clip width 100), `drawScrollText` zeroes
`maxOffset` and clears `active` but leaves `offsetPx` at 5, so the
claimed "offset forced to 0" is false. -/
theorem scroll_fits_keeps_offset_cex :
    ¬ (((drawScrollText (fun fb _ _ _ => fb) [65, 0] 0 0 100 0 7
          ⟨5, 40, 0, 1, true⟩ (fun _ => 0)).1).offsetPx = 0 ∧
       ((drawScrollText (fun fb _ _ _ => fb) [65, 0] 0 0 100 0 7
          ⟨5, 40, 0, 1, true⟩ (fun _ => 0)).1).maxOffset = 0 ∧
       ((drawScrollText (fun fb _ _ _ => fb) [65, 0] 0 0 100 0 7
          ⟨5, 40, 0, 1, true⟩ (fun _ => 0)).1).active = false) := by
  intro h
  have h5 : ((drawScrollText (fun fb _ _ _ => fb) [65, 0] 0 0 100 0 7
      ⟨5, 40, 0, 1, true⟩ (fun _ => 0)).1).offsetPx = 5 := by rfl
  rw [h5] at h
  exact absurd h.1 (by norm_num)

/-- C3 amended: when the measured text width is at most the clip width,
`drawScrollText` makes the field static by setting `maxOffset := 0` and
`active := false`, but it leaves `offsetPx` (as well as `phase` and
`lastStepMs`) unchanged rather than forcing the offset to 0; the static
draw ignores the stale offset. -/
theorem scroll_static_when_fits
    (render : (Int → Nat) → Int → Int → Nat → (Int → Nat))
    (text : List Nat) (x y maxWidth : Int) (color : Nat) (nowMs : Nat)
    (slot : ScrollSlot) (fb : Int → Nat)
    (hfit : textWidth text ≤ maxWidth) :
    ((drawScrollText render text x y maxWidth color nowMs slot fb).1).maxOffset = 0 ∧
    ((drawScrollText render text x y maxWidth color nowMs slot fb).1).active = false ∧
    ((drawScrollText render text x y maxWidth color nowMs slot fb).1).offsetPx =
      slot.offsetPx ∧
    ((drawScrollText render text x y maxWidth color nowMs slot fb).1).phase =
      slot.phase ∧
    ((drawScrollText render text x y maxWidth color nowMs slot fb).1).lastStepMs =
      slot.lastStepMs := by
  simp [drawScrollText, if_pos hfit]

/-- Witness for `scroll_static_when_fits` at text "A", clip width 100,
slot ⟨5, 40, 0, 1, true⟩. -/
theorem scroll_static_when_fits_witness :
    textWidth [65, 0] ≤ 100 ∧
    ((drawScrollText (fun fb _ _ _ => fb) [65, 0] 0 0 100 0 7
        ⟨5, 40, 0, 1, true⟩ (fun _ => 0)).1).maxOffset = 0 :=
  ⟨by decide,
   (scroll_static_when_fits (fun fb _ _ _ => fb) [65, 0] 0 0 100 0 7
      ⟨5, 40, 0, 1, true⟩ (fun _ => 0) (by decide)).1⟩

/-- The slot component of `drawScrollText`, written out as nested
conditionals. -/
theorem drawScrollText_fst
    (render : (Int → Nat) → Int → Int → Nat → (Int → Nat))
    (text : List Nat) (x y maxWidth : Int) (color : Nat) (nowMs : Nat)
    (slot : ScrollSlot) (fb : Int → Nat) :
    (drawScrollText render text x y maxWidth color nowMs slot fb).1 =
      if textWidth text ≤ maxWidth then
        { slot with maxOffset := 0, active := false }
      else if slot.maxOffset ≠ textWidth text - maxWidth then
        { slot with
            maxOffset := i16 (textWidth text - maxWidth),
            lastStepMs :=
              if slot.phase = 0 ∧ slot.offsetPx = 0 ∧ slot.lastStepMs = 0
              then nowMs else slot.lastStepMs,
            active := true }
      else slot := by
  simp only [drawScrollText]
  by_cases hfit : textWidth text ≤ maxWidth
  · rw [if_pos hfit, if_pos hfit]
  · rw [if_neg hfit, if_neg hfit]

/-- `i16` is the identity on values already in `int16_t` range. -/
theorem i16_eq_self {v : Int} (h1 : -32768 ≤ v) (h2 : v < 32768) :
    i16 v = v := by
  unfold i16
  omega

/-- C4 counterexample: for a slot with prior offset 7 and phase 2 (end
pause) and a text whose overflow 8 differs from the stored maxOffset 0,
`drawScrollText` sets `maxOffset := 8` and `active := true` but leaves
`offsetPx` at 7 and `phase` at 2 — it does not reset the offset to 0 or
the phase to initial-pause as claimed. -/
theorem scroll_reinit_keeps_offset_phase_cex :
    ¬ (((drawScrollText (fun fb _ _ _ => fb) [65, 66, 0] 0 0 8 0 99
          ⟨7, 0, 5, 2, false⟩ (fun _ => 0)).1).maxOffset = 8 ∧
       ((drawScrollText (fun fb _ _ _ => fb) [65, 66, 0] 0 0 8 0 99
          ⟨7, 0, 5, 2, false⟩ (fun _ => 0)).1).offsetPx = 0 ∧
       ((drawScrollText (fun fb _ _ _ => fb) [65, 66, 0] 0 0 8 0 99
          ⟨7, 0, 5, 2, false⟩ (fun _ => 0)).1).phase = 0 ∧
       ((drawScrollText (fun fb _ _ _ => fb) [65, 66, 0] 0 0 8 0 99
          ⟨7, 0, 5, 2, false⟩ (fun _ => 0)).1).active = true) := by
  intro h
  have h7 : ((drawScrollText (fun fb _ _ _ => fb) [65, 66, 0] 0 0 8 0 99
      ⟨7, 0, 5, 2, false⟩ (fun _ => 0)).1).offsetPx = 7 := by rfl
  rw [h7] at h
  exact absurd h.2.1 (by norm_num)

/-- C4 amended: when the text overflows and the overflow differs from
the stored `maxOffset`, `drawScrollText` updates only `maxOffset` (to
the overflow, stored through `int16_t`) and `active` (to true);
`offsetPx` and `phase` keep their prior values rather than being reset
to 0 and initial-pause, and `lastStepMs` is set to the current time
only when the slot is completely fresh (phase, offset and timestamp all
zero). -/
theorem scroll_reinit_on_overflow_change
    (render : (Int → Nat) → Int → Int → Nat → (Int → Nat))
    (text : List Nat) (x y maxWidth : Int) (color : Nat) (nowMs : Nat)
    (slot : ScrollSlot) (fb : Int → Nat) (s' : ScrollSlot)
    (hs' : s' = (drawScrollText render text x y maxWidth color nowMs slot fb).1)
    (hov : maxWidth < textWidth text)
    (hne : slot.maxOffset ≠ textWidth text - maxWidth)
    (hsm : textWidth text - maxWidth < 32768) :
    s'.maxOffset = textWidth text - maxWidth ∧ s'.active = true ∧
    s'.offsetPx = slot.offsetPx ∧ s'.phase = slot.phase ∧
    s'.lastStepMs =
      (if slot.phase = 0 ∧ slot.offsetPx = 0 ∧ slot.lastStepMs = 0
       then nowMs else slot.lastStepMs) := by
  rw [drawScrollText_fst, if_neg (by omega), if_pos hne] at hs'
  subst hs'
  refine ⟨?_, rfl, rfl, rfl, rfl⟩
  exact i16_eq_self (by omega) hsm

/-- Witness for `scroll_reinit_on_overflow_change` at text "AB"
(width 16), clip width 8, slot ⟨7, 0, 5, 2, false⟩. -/
theorem scroll_reinit_on_overflow_change_witness :
    (8 : Int) < textWidth [65, 66, 0] ∧
    ((drawScrollText (fun fb _ _ _ => fb) [65, 66, 0] 0 0 8 0 99
        ⟨7, 0, 5, 2, false⟩ (fun _ => 0)).1).maxOffset =
      textWidth [65, 66, 0] - 8 :=
  ⟨by decide,
   (scroll_reinit_on_overflow_change (fun fb _ _ _ => fb) [65, 66, 0]
      0 0 8 0 99 ⟨7, 0, 5, 2, false⟩ (fun _ => 0) _ rfl
      (by decide) (by decide) (by decide)).1⟩

/-- C5 counterexample: the slot ⟨30, 40, 0, 1, true⟩ satisfies the
invariant 0 ≤ offsetPx ≤ maxOffset, but one `drawScrollText` call with
a text whose overflow is 8 shrinks `maxOffset` to 8 while leaving
`offsetPx` at 30, breaking the invariant. -/
theorem scroll_invariant_breaks_cex :
    ((0 : Int) ≤ (⟨30, 40, 0, 1, true⟩ : ScrollSlot).offsetPx ∧
      (⟨30, 40, 0, 1, true⟩ : ScrollSlot).offsetPx ≤
        (⟨30, 40, 0, 1, true⟩ : ScrollSlot).maxOffset) ∧
    ¬ ((0 : Int) ≤ ((drawScrollText (fun fb _ _ _ => fb) [65, 66, 0] 0 0 8 0 0
          ⟨30, 40, 0, 1, true⟩ (fun _ => 0)).1).offsetPx ∧
       ((drawScrollText (fun fb _ _ _ => fb) [65, 66, 0] 0 0 8 0 0
          ⟨30, 40, 0, 1, true⟩ (fun _ => 0)).1).offsetPx ≤
       ((drawScrollText (fun fb _ _ _ => fb) [65, 66, 0] 0 0 8 0 0
          ⟨30, 40, 0, 1, true⟩ (fun _ => 0)).1).maxOffset) := by
  constructor
  · exact ⟨by norm_num, by norm_num⟩
  · intro h
    have h30 : ((drawScrollText (fun fb _ _ _ => fb) [65, 66, 0] 0 0 8 0 0
        ⟨30, 40, 0, 1, true⟩ (fun _ => 0)).1).offsetPx = 30 := by rfl
    have h8 : ((drawScrollText (fun fb _ _ _ => fb) [65, 66, 0] 0 0 8 0 0
        ⟨30, 40, 0, 1, true⟩ (fun _ => 0)).1).maxOffset = 8 := by rfl
    rw [h30, h8] at h
    exact absurd h.2 (by norm_num)

/-- C5 amended: `drawScrollText` never changes `offsetPx`, so starting
from a slot with 0 ≤ offsetPx ≤ maxOffset, after the call
0 ≤ offsetPx ≤ max(new maxOffset, previous maxOffset) holds; the full
invariant offsetPx ≤ maxOffset is restored whenever the prior offset is
at most the recomputed overflow (with the overflow in int16 range), but
it can fail when the text changes so that its overflow drops below the
untouched offset (including the fits case, which zeroes maxOffset
without zeroing offsetPx). -/
theorem scroll_offset_stays_bounded
    (render : (Int → Nat) → Int → Int → Nat → (Int → Nat))
    (text : List Nat) (x y maxWidth : Int) (color : Nat) (nowMs : Nat)
    (slot : ScrollSlot) (fb : Int → Nat) (s' : ScrollSlot)
    (hs' : s' = (drawScrollText render text x y maxWidth color nowMs slot fb).1)
    (h0 : 0 ≤ slot.offsetPx) (h1 : slot.offsetPx ≤ slot.maxOffset) :
    s'.offsetPx = slot.offsetPx ∧ 0 ≤ s'.offsetPx ∧
    s'.offsetPx ≤ max s'.maxOffset slot.maxOffset ∧
    (slot.offsetPx ≤ textWidth text - maxWidth →
      textWidth text - maxWidth < 32768 → s'.offsetPx ≤ s'.maxOffset) := by
  rw [drawScrollText_fst] at hs'
  by_cases hfit : textWidth text ≤ maxWidth
  · rw [if_pos hfit] at hs'
    subst hs'
    refine ⟨rfl, h0, le_trans h1 (le_max_right _ _), ?_⟩
    intro hle _
    show slot.offsetPx ≤ (0 : Int)
    omega
  · rw [if_neg hfit] at hs'
    by_cases hne : slot.maxOffset ≠ textWidth text - maxWidth
    · rw [if_pos hne] at hs'
      subst hs'
      refine ⟨rfl, h0, le_trans h1 (le_max_right _ _), ?_⟩
      intro hle hsm
      show slot.offsetPx ≤ i16 (textWidth text - maxWidth)
      rw [i16_eq_self (by omega) hsm]
      exact hle
    · rw [if_neg hne] at hs'
      subst hs'
      exact ⟨rfl, h0, le_trans h1 (le_max_right _ _), fun _ _ => h1⟩

/-- Witness for `scroll_offset_stays_bounded` at text "AB" (width 16),
clip width 8, slot ⟨2, 10, 0, 1, true⟩. -/
theorem scroll_offset_stays_bounded_witness :
    (0 : Int) ≤ (2 : Int) ∧ (2 : Int) ≤ (10 : Int) ∧
    ((drawScrollText (fun fb _ _ _ => fb) [65, 66, 0] 0 0 8 0 0
        ⟨2, 10, 0, 1, true⟩ (fun _ => 0)).1).offsetPx = 2 :=
  ⟨by norm_num, by norm_num,
   (scroll_offset_stays_bounded (fun fb _ _ _ => fb) [65, 66, 0] 0 0 8 0 0
      ⟨2, 10, 0, 1, true⟩ (fun _ => 0) _ rfl (by norm_num) (by norm_num)).1⟩

/-- The inner `fillRect` loop changes a flat index only if that index is
a guarded in-range column of its row. -/
theorem fillRectCols_frame (row : Int) (color : Nat) :
    ∀ (n : Nat) (col : Int) (fb : Int → Nat) (i : Int),
      fillRectCols row color n col fb i ≠ fb i →
      ∃ c : Int, col ≤ c ∧ c < col + n ∧ 0 ≤ c ∧ i = row * VIDEO_W + c := by
  intro n
  induction n with
  | zero => intro col fb i h; exact absurd rfl h
  | succ n ih =>
      intro col fb i h
      simp only [fillRectCols] at h
      by_cases hcol : col < 0
      · rw [if_pos hcol] at h
        obtain ⟨c, h1, h2, h3, h4⟩ := ih (col + 1) fb i h
        refine ⟨c, by omega, by omega, h3, h4⟩
      · rw [if_neg hcol] at h
        by_cases h2 : fillRectCols row color n (col + 1)
            (fbWrite fb (row * VIDEO_W + col) color) i ≠
            fbWrite fb (row * VIDEO_W + col) color i
        · obtain ⟨c, hc1, hc2, hc3, hc4⟩ :=
            ih (col + 1) (fbWrite fb (row * VIDEO_W + col) color) i h2
          refine ⟨c, by omega, by omega, hc3, hc4⟩
        · push_neg at h2
          rw [h2] at h
          have hidx : i = row * VIDEO_W + col := by
            by_contra hid
            exact h (by simp [fbWrite, hid])
          exact ⟨col, le_refl _, by omega, by omega, hidx⟩

/-- The outer `fillRect` loop changes a flat index only if it names an
in-screen cell inside the requested rectangle. -/
theorem fillRectRows_frame (x w : Int) (color : Nat) :
    ∀ (n : Nat) (row : Int) (fb : Int → Nat) (i : Int),
      fillRectRows x w color n row fb i ≠ fb i →
      ∃ r c : Int, row ≤ r ∧ r < row + n ∧ 0 ≤ r ∧
        x ≤ c ∧ c < x + w ∧ 0 ≤ c ∧ c < VIDEO_W ∧ i = r * VIDEO_W + c := by
  intro n
  induction n with
  | zero => intro row fb i h; exact absurd rfl h
  | succ n ih =>
      intro row fb i h
      simp only [fillRectRows] at h
      by_cases hrow : row < 0
      · rw [if_pos hrow] at h
        obtain ⟨r, c, h1, h2, h3, h4, h5, h6, h7, h8⟩ := ih (row + 1) fb i h
        exact ⟨r, c, by omega, by omega, h3, h4, h5, h6, h7, h8⟩
      · rw [if_neg hrow] at h
        by_cases h2 : fillRectRows x w color n (row + 1)
            (fillRectCols row color (min (x + w) VIDEO_W - x).toNat x fb) i ≠
            fillRectCols row color (min (x + w) VIDEO_W - x).toNat x fb i
        · obtain ⟨r, c, h1', h2', h3', h4', h5', h6', h7', h8'⟩ :=
            ih (row + 1) (fillRectCols row color (min (x + w) VIDEO_W - x).toNat x fb) i h2
          exact ⟨r, c, by omega, by omega, h3', h4', h5', h6', h7', h8'⟩
        · push_neg at h2
          rw [h2] at h
          obtain ⟨c, hc1, hc2, hc3, hc4⟩ :=
            fillRectCols_frame row color (min (x + w) VIDEO_W - x).toNat x fb i h
          refine ⟨row, c, le_refl _, by omega, by omega, hc1, ?_, hc3, ?_, hc4⟩
          · have : (VIDEO_W : Int) = 210 := rfl
            omega
          · have : (VIDEO_W : Int) = 210 := rfl
            omega

/-- `fillRect` changes a flat index only if it names an in-screen cell
inside the rectangle `[x, x+w) × [y, y+h)`. -/
theorem fillRect_frame (x y w h : Int) (color : Nat) (fb : Int → Nat) (i : Int)
    (hch : fillRect x y w h color fb i ≠ fb i) :
    ∃ r c : Int, 0 ≤ r ∧ r < VIDEO_H ∧ 0 ≤ c ∧ c < VIDEO_W ∧
      y ≤ r ∧ r < y + h ∧ x ≤ c ∧ c < x + w ∧ i = r * VIDEO_W + c := by
  obtain ⟨r, c, h1, h2, h3, h4, h5, h6, h7, h8⟩ :=
    fillRectRows_frame x w color (min (y + h) VIDEO_H - y).toNat y fb i hch
  have hH : (VIDEO_H : Int) = 135 := rfl
  exact ⟨r, c, h3, by omega, h6, h7, h1, by omega, h4, h5, h8⟩

/-- The inner `drawIcon` loop changes a flat index only if that index is
an in-screen cell of its row. -/
theorem drawIconCols_frame (icon : Int → Nat) (w row fy x : Int) :
    ∀ (n : Nat) (col : Int) (fb : Int → Nat) (i : Int),
      drawIconCols icon w row fy x n col fb i ≠ fb i →
      ∃ c : Int, 0 ≤ x + c ∧ x + c < VIDEO_W ∧ i = fy * VIDEO_W + (x + c) := by
  intro n
  induction n with
  | zero => intro col fb i h; exact absurd rfl h
  | succ n ih =>
      intro col fb i h
      simp only [drawIconCols] at h
      by_cases hfx : x + col < 0 ∨ VIDEO_W ≤ x + col
      · rw [if_pos hfx] at h
        exact ih (col + 1) fb i h
      · rw [if_neg hfx] at h
        push_neg at hfx
        by_cases hpx : icon (row * w + col) ≠ 0
        · rw [if_pos hpx] at h
          by_cases h2 : drawIconCols icon w row fy x n (col + 1)
              (fbWrite fb (fy * VIDEO_W + (x + col)) (icon (row * w + col))) i ≠
              fbWrite fb (fy * VIDEO_W + (x + col)) (icon (row * w + col)) i
          · exact ih (col + 1) _ i h2
          · push_neg at h2
            rw [h2] at h
            have hidx : i = fy * VIDEO_W + (x + col) := by
              by_contra hid
              exact h (by simp [fbWrite, hid])
            exact ⟨col, hfx.1, hfx.2, hidx⟩
        · rw [if_neg hpx] at h
          exact ih (col + 1) fb i h

/-- The outer `drawIcon` loop changes a flat index only if it names an
in-screen cell. -/
theorem drawIconRows_frame (icon : Int → Nat) (x y w : Int) :
    ∀ (n : Nat) (row : Int) (fb : Int → Nat) (i : Int),
      drawIconRows icon x y w n row fb i ≠ fb i →
      ∃ r c : Int, 0 ≤ r ∧ r < VIDEO_H ∧ 0 ≤ c ∧ c < VIDEO_W ∧
        i = r * VIDEO_W + c := by
  intro n
  induction n with
  | zero => intro row fb i h; exact absurd rfl h
  | succ n ih =>
      intro row fb i h
      simp only [drawIconRows] at h
      by_cases hfy : y + row < 0 ∨ VIDEO_H ≤ y + row
      · rw [if_pos hfy] at h
        exact ih (row + 1) fb i h
      · rw [if_neg hfy] at h
        push_neg at hfy
        by_cases h2 : drawIconRows icon x y w n (row + 1)
            (drawIconCols icon w row (y + row) x w.toNat 0 fb) i ≠
            drawIconCols icon w row (y + row) x w.toNat 0 fb i
        · exact ih (row + 1) _ i h2
        · push_neg at h2
          rw [h2] at h
          obtain ⟨c, hc1, hc2, hc3⟩ :=
            drawIconCols_frame icon w row (y + row) x w.toNat 0 fb i h
          exact ⟨y + row, x + c, hfy.1, hfy.2, hc1, hc2, hc3⟩

/-- C9: for all integer arguments (including negative and oversized
ones), `fillRect` and `drawIcon` change only framebuffer cells whose
row is in `[0, VIDEO_H)` and whose column is in `[0, VIDEO_W)`; no flat
index outside the framebuffer is ever written. -/
theorem draw_primitives_stay_in_bounds (x y w h : Int) (color : Nat)
    (icon : Int → Nat) (fb : Int → Nat) (i : Int)
    (hch : fillRect x y w h color fb i ≠ fb i ∨
           drawIcon icon x y w h fb i ≠ fb i) :
    ∃ r c : Int, 0 ≤ r ∧ r < VIDEO_H ∧ 0 ≤ c ∧ c < VIDEO_W ∧
      i = r * VIDEO_W + c := by
  rcases hch with hch | hch
  · obtain ⟨r, c, h1, h2, h3, h4, _, _, _, _, h9⟩ :=
      fillRect_frame x y w h color fb i hch
    exact ⟨r, c, h1, h2, h3, h4, h9⟩
  · exact drawIconRows_frame icon x y w h.toNat 0 fb i hch

/-- Witness for `draw_primitives_stay_in_bounds`: filling the 1×1
rectangle at the origin with color 7 changes flat index 0, which indeed
names the in-screen cell (0, 0). -/
theorem draw_primitives_stay_in_bounds_witness :
    ∃ r c : Int, 0 ≤ r ∧ r < VIDEO_H ∧ 0 ≤ c ∧ c < VIDEO_W ∧
      (0 : Int) = r * VIDEO_W + c :=
  draw_primitives_stay_in_bounds 0 0 1 1 7 (fun _ => 0) (fun _ => 0) 0
    (Or.inl (by decide))

/-- The text-draw-then-blackout pipeline of `drawScrollText` leaves any
cell outside the clip rectangle and the two overflow strips unchanged,
given that the text draw itself stays inside its bounding box. -/
theorem scroll_blackout_frame (tw x y maxWidth drawX : Int)
    (fb fb1 : Int → Nat)
    (h1 : ∀ j : Int, fb1 j ≠ fb j →
      ∃ r c : Int, y ≤ r ∧ r < y + 18 ∧ 0 ≤ r ∧ r < VIDEO_H ∧
        drawX ≤ c ∧ c < drawX + tw ∧ 0 ≤ c ∧ c < VIDEO_W ∧
        j = r * VIDEO_W + c)
    (i : Int)
    (houtside : ∀ r c : Int, 0 ≤ r → r < VIDEO_H → 0 ≤ c → c < VIDEO_W →
      i = r * VIDEO_W + c →
      ¬ (y ≤ r ∧ r < y + 18 ∧
         ((x ≤ c ∧ c < x + maxWidth) ∨
          (max drawX 0 ≤ c ∧ c < x) ∨
          (x + maxWidth ≤ c ∧ c < min (drawX + tw) VIDEO_W)))) :
    (if (if drawX + tw > VIDEO_W then VIDEO_W else drawX + tw) > x + maxWidth
     then fillRect (x + maxWidth) y
        ((if drawX + tw > VIDEO_W then VIDEO_W else drawX + tw) -
          (x + maxWidth)) 18 COL_BG
        (if (if drawX > 0 then drawX else 0) < x
         then fillRect (if drawX > 0 then drawX else 0) y
            (x - (if drawX > 0 then drawX else 0)) 18 COL_BG fb1
         else fb1)
     else
       (if (if drawX > 0 then drawX else 0) < x
        then fillRect (if drawX > 0 then drawX else 0) y
           (x - (if drawX > 0 then drawX else 0)) 18 COL_BG fb1
        else fb1)) i = fb i := by
  set textLeft := if drawX > 0 then drawX else 0 with htl
  set textRight := if drawX + tw > VIDEO_W then VIDEO_W else drawX + tw with htr
  have htl1 : textLeft = max drawX 0 := by rw [htl]; split <;> omega
  have htr1 : textRight = min (drawX + tw) VIDEO_W := by rw [htr]; split <;> omega
  have step1 : fb1 i = fb i := by
    by_contra hc
    obtain ⟨r, c, hyr, hr18, h0r, hrH, hdc, hctw, h0c, hcW, hidx⟩ := h1 i hc
    refine houtside r c h0r hrH h0c hcW hidx ⟨hyr, hr18, ?_⟩
    rcases lt_or_le c x with hcx | hcx
    · exact Or.inr (Or.inl ⟨by omega, hcx⟩)
    · rcases lt_or_le c (x + maxWidth) with hcm | hcm
      · exact Or.inl ⟨hcx, hcm⟩
      · exact Or.inr (Or.inr ⟨hcm, by omega⟩)
  set fb2 := if textLeft < x
      then fillRect textLeft y (x - textLeft) 18 COL_BG fb1 else fb1 with hfb2
  have step2 : fb2 i = fb1 i := by
    rw [hfb2]
    split_ifs with hlt
    · by_contra hc
      obtain ⟨r, c, h0r, hrH, h0c, hcW, hyr, hr18, htc, hcx, hidx⟩ :=
        fillRect_frame textLeft y (x - textLeft) 18 COL_BG fb1 i hc
      exact houtside r c h0r hrH h0c hcW hidx
        ⟨hyr, hr18, Or.inr (Or.inl ⟨by omega, by omega⟩)⟩
    · rfl
  have step3 :
      (if textRight > x + maxWidth
       then fillRect (x + maxWidth) y (textRight - (x + maxWidth)) 18 COL_BG fb2
       else fb2) i = fb2 i := by
    split_ifs with hgt
    · by_contra hc
      obtain ⟨r, c, h0r, hrH, h0c, hcW, hyr, hr18, htc, hcx, hidx⟩ :=
        fillRect_frame (x + maxWidth) y (textRight - (x + maxWidth)) 18 COL_BG
          fb2 i hc
      exact houtside r c h0r hrH h0c hcW hidx
        ⟨hyr, hr18, Or.inr (Or.inr ⟨htc, by omega⟩)⟩
    · rfl
  calc (if textRight > x + maxWidth
       then fillRect (x + maxWidth) y (textRight - (x + maxWidth)) 18 COL_BG fb2
       else fb2) i
      = fb2 i := step3
    _ = fb1 i := step2
    _ = fb i := step1

/-- C6: on overflowing text, and assuming the external rasterizer keeps
to its bounding box, `drawScrollText` leaves every framebuffer cell
outside the union of the clip rectangle `[x, x+maxWidth) × [y, y+18)`
and the two narrow overflow strips (left of `x` down to the text's
drawn left edge, and right of `x+maxWidth` up to the text's drawn right
edge, same rows) with the same value it had before the call. -/
theorem scroll_text_repaints_only_clip_and_strips
    (render : (Int → Nat) → Int → Int → Nat → (Int → Nat))
    (text : List Nat) (x y maxWidth : Int) (color : Nat) (nowMs : Nat)
    (slot : ScrollSlot) (fb : Int → Nat)
    (hrender : rendersWithin (textWidth text) render)
    (hov : maxWidth < textWidth text)
    (i : Int)
    (houtside : ∀ r c : Int, 0 ≤ r → r < VIDEO_H → 0 ≤ c → c < VIDEO_W →
      i = r * VIDEO_W + c →
      ¬ (y ≤ r ∧ r < y + 18 ∧
         ((x ≤ c ∧ c < x + maxWidth) ∨
          (max (x - slot.offsetPx) 0 ≤ c ∧ c < x) ∨
          (x + maxWidth ≤ c ∧
            c < min (x - slot.offsetPx + textWidth text) VIDEO_W)))) :
    (drawScrollText render text x y maxWidth color nowMs slot fb).2 i = fb i := by
  have hnotfit : ¬ textWidth text ≤ maxWidth := by omega
  simp only [drawScrollText]
  rw [if_neg hnotfit]
  by_cases hne : slot.maxOffset ≠ textWidth text - maxWidth
  · rw [if_pos hne]
    exact scroll_blackout_frame (textWidth text) x y maxWidth
      (x - slot.offsetPx) fb (render fb (x - slot.offsetPx) y color)
      (fun j hj => hrender fb (x - slot.offsetPx) y color j hj) i houtside
  · rw [if_neg hne]
    exact scroll_blackout_frame (textWidth text) x y maxWidth
      (x - slot.offsetPx) fb (render fb (x - slot.offsetPx) y color)
      (fun j hj => hrender fb (x - slot.offsetPx) y color j hj) i houtside

/-- Witness for `scroll_text_repaints_only_clip_and_strips`: the
identity rasterizer, text "AB" (width 16), clip `[0, 8) × [0, 18)`,
slot offset 0, and the cell at row 20, column 0 (flat index 4200),
which lies outside the union of clip and strips. -/
theorem scroll_text_repaints_witness :
    (drawScrollText (fun fb _ _ _ => fb) [65, 66, 0] 0 0 8 0 0
      ⟨0, 8, 0, 0, true⟩ (fun _ => 0)).2 4200 = 0 :=
  scroll_text_repaints_only_clip_and_strips (fun fb _ _ _ => fb)
    [65, 66, 0] 0 0 8 0 0 ⟨0, 8, 0, 0, true⟩ (fun _ => 0)
    (fun _ _ _ _ _ h => absurd rfl h) (by decide) 4200
    (by
      intro r c h0r hrH h0c hcW hidx
      have hW : (VIDEO_W : Int) = 210 := rfl
      have hH : (VIDEO_H : Int) = 135 := rfl
      rw [hW] at hidx hcW
      rw [hH] at hrH
      omega)

/-- C7: for any sequence of next/previous events, the navigation index
for a tier with `count = N` never leaves `[0, N-1]` when `N > 0`
(increments and decrements clamp, no wraparound), and when `N = 0`
every event is a no-op so the index stays where it started (in
particular at 0). -/
theorem nav_index_clamped (count : Int) (evs : List NavEvent) (idx : Int) :
    (0 < count → 0 ≤ idx → idx < count →
      0 ≤ navRun count evs idx ∧ navRun count evs idx < count) ∧
    (count = 0 → navRun count evs idx = idx) := by
  induction evs generalizing idx with
  | nil => exact ⟨fun _ h0 h1 => ⟨h0, h1⟩, fun _ => rfl⟩
  | cons e rest ih =>
      have hrun : navRun count (e :: rest) idx =
          navRun count rest (navStep count idx e) := rfl
      constructor
      · intro hc h0 h1
        have hstep : 0 ≤ navStep count idx e ∧ navStep count idx e < count := by
          cases e <;> simp only [navStep, if_pos hc] <;> constructor <;> omega
        rw [hrun]
        exact (ih (navStep count idx e)).1 hc hstep.1 hstep.2
      · intro hc
        have hstep : navStep count idx e = idx := by
          cases e <;> simp only [navStep] <;> rw [if_neg (by omega)]
        rw [hrun, hstep]
        exact (ih idx).2 hc

/-- Witness for `nav_index_clamped` with count 3, start index 0, and
the event sequence next, next, next, next, prev. -/
theorem nav_index_clamped_witness :
    0 ≤ navRun 3 [.next, .next, .next, .next, .prev] 0 ∧
    navRun 3 [.next, .next, .next, .next, .prev] 0 < 3 :=
  (nav_index_clamped 3 [.next, .next, .next, .next, .prev] 0).1
    (by norm_num) (by norm_num) (by norm_num)

/-- C8: for every tier and every buffer of the tier's declared length
whose first 4 bytes differ from that tier's magic tag, `decode` fails
with `BadMagic` (the magic check runs before the version check, so this
holds even when the version byte is correct). -/
theorem decode_bad_magic (t : Tier) (bytes : List Nat)
    (hlen : bytes.length = layoutSize (tierLayout t))
    (hmagic : bytes.take 4 ≠ magicBytes t) :
    decode bytes t = .error .BadMagic := by
  unfold decode
  rw [if_neg (by omega), if_pos hmagic]

set_option maxRecDepth 8000 in
/-- Witness for `decode_bad_magic`: a 128-byte show buffer that starts
with four zero bytes (not "SFTV") but carries the correct version byte
1 at offset 4. -/
theorem decode_bad_magic_witness :
    ([0, 0, 0, 0, 1] ++ List.replicate 123 0).length =
      layoutSize (tierLayout .show) ∧
    decode ([0, 0, 0, 0, 1] ++ List.replicate 123 0) .show =
      .error .BadMagic :=
  ⟨by decide,
   decode_bad_magic .show ([0, 0, 0, 0, 1] ++ List.replicate 123 0)
     (by decide) (by decide)⟩

end SeinfeldTV
